import Mathlib

/-!
Shallow embedding of the cross-filter dashboard core
(`src/app.py`, `src/app_cross_filter_plotly_state_management.py`,
`src/app_cross_filter_vega_state_management.py.py`).

The embedding models:
  * `Record` / datasets as `List Record` (the merged, cleaned frame `df`);
  * the per-dimension filter state held in the three `dcc.Store`s as a
    triple of strings with the literal sentinel `"All"`;
  * the toggle helpers `get_next_state` (app.py), `get_new_filter_value`
    (plotly state-management variant) and `process_signal` (vega variant);
  * the state-management callbacks `manage_state` / `manage_filters`;
  * the view-filter resolution: `filter_df` with its three `ignore_*`
    flags (plotly/vega state-management variants) and the inline
    per-chart subsets of `update_view` in app.py;
  * the KPI block (sum of Amount/Profit/Quantity, `nunique` of Order ID,
    with the explicit empty-frame zero branch);
  * the aggregation pipelines of the bar charts:
    `groupby(col)[measure].sum()` (pandas sorts group keys ascending),
    then per call site `sort_values(measure, ascending=False).head(n)`
    (vertical charts), `sort_values(ascending=True).tail(10)` (app.py's
    horizontal chart) or `sort_values(ascending=True).head(8)` (the
    plotly variant's horizontal chart).  The sorts are modelled as stable
    insertion sorts; pandas' default `kind='quicksort'` guarantees that
    tie order deterministically only for frames of at most 16 groups
    (numpy insertion-sorts short arrays), so the theorems assert tie
    order only on such small fixtures, and only sum-monotonicity,
    membership and truncation bounds universally;
  * the numeric-coercion loop at load time in app.py
    (`str.replace(r"[$,]", "")` then `to_numeric(errors="coerce").fillna(0)`).
-/

/-- One joined row of `df_merged` (Details ⋈ Orders on Order ID). -/
structure Record where
  orderId : Nat
  subCategory : String
  state : String
  customerName : String
  amount : Int
  profit : Int
  quantity : Int
deriving DecidableEq, Repr

/-- The three `dcc.Store` values: per-dimension selections, `"All"` = no
restriction. -/
structure FilterState where
  sub : String
  state : String
  cust : String
deriving DecidableEq, Repr

/-- The initial / reset state `("All", "All", "All")`. -/
def allAll : FilterState := ⟨"All", "All", "All"⟩

/-- One guarded equality filter: `if sel != "All": d = d[d[col] == sel]`. -/
def applyDim (sel : String) (field : Record → String) (d : List Record) :
    List Record :=
  if sel ≠ "All" then d.filter (fun r => field r == sel) else d

/-- The resolver `filter_df(ignore_sub, ignore_state, ignore_cust)` of the plotly and
vega state-management variants: the three guarded equality filters applied
in source order (Sub-Category, then State, then CustomerName), each skipped
when its `ignore_*` flag is set. -/
def filter_df (df : List Record) (s : FilterState)
    (ignSub ignState ignCust : Bool) : List Record :=
  let d := df
  let d := if ¬ignSub ∧ s.sub ≠ "All"
    then d.filter (fun r => r.subCategory == s.sub) else d
  let d := if ¬ignState ∧ s.state ≠ "All"
    then d.filter (fun r => r.state == s.state) else d
  let d := if ¬ignCust ∧ s.cust ≠ "All"
    then d.filter (fun r => r.customerName == s.cust) else d
  d

/-- app.py `update_view`: the KPI subset (all three filters, in order
Sub-Category, State, CustomerName). -/
def dff_kpi (df : List Record) (s : FilterState) : List Record :=
  applyDim s.cust Record.customerName
    (applyDim s.state Record.state
      (applyDim s.sub Record.subCategory df))

/-- app.py `update_view`: the Sub-Category chart subset (State then
CustomerName; the Sub-Category filter is not applied). -/
def df_sub_app (df : List Record) (s : FilterState) : List Record :=
  applyDim s.cust Record.customerName (applyDim s.state Record.state df)

/-- app.py `update_view`: the State chart subset (Sub-Category then
CustomerName; the State filter is not applied). -/
def df_state_app (df : List Record) (s : FilterState) : List Record :=
  applyDim s.cust Record.customerName (applyDim s.sub Record.subCategory df)

/-- app.py `update_view`: the Customer chart subset (Sub-Category then
State; the CustomerName filter is not applied). -/
def df_cust_app (df : List Record) (s : FilterState) : List Record :=
  applyDim s.state Record.state (applyDim s.sub Record.subCategory df)

/-- app.py `get_next_state`: `none` models a falsy `click_data` or an
extraction failure caught by the bare `except` (both return the current
value); `some v` is the successfully extracted clicked axis value. -/
def get_next_state (clickVal : Option String) (current : String) : String :=
  match clickVal with
  | none => current
  | some v => if v = current then "All" else v

/-- Python `str.strip()` on the character list: drop leading and trailing
whitespace. -/
def stripEnds (cs : List Char) : List Char :=
  ((cs.dropWhile Char.isWhitespace).reverse.dropWhile Char.isWhitespace).reverse

/-- Python `str.strip()` lifted to strings. -/
def pyStrip (s : String) : String :=
  String.mk (stripEnds s.data)

/-- plotly state-management variant `get_new_filter_value`: the clicked
value is stripped (`.strip()`), deselection additionally requires the
current filter to differ from `"All"`; `none` models the `except` path. -/
def get_new_filter_value (clickVal : Option String) (current : String) :
    String :=
  match clickVal with
  | none => current
  | some v =>
    let c := pyStrip v
    if current ≠ "All" ∧ c = current then "All" else c

/-- vega variant `process_signal`, with the payload abstracted:
`none` = no signal data or the signal name is absent (return current);
`some none` = the selection content is present but falsy/empty (the code
returns `"All"`); `some (some vs)` = the key field holds the value list
`vs` (empty list falls through to the current value, a nonempty list's
head is toggled against the current value). -/
def process_signal (sig : Option (Option (List String))) (current : String) :
    String :=
  match sig with
  | none => current
  | some none => "All"
  | some (some []) => current
  | some (some (v :: _)) =>
    if current ≠ "All" ∧ v = current then "All" else v

/-- Which input fired the state-management callback (`ctx.triggered`):
`noTrigger` = initial call, `clearBtn` = the reset button, one case per
chart, `unknown` = any other prop id (falls through to the final
carry-over return). -/
inductive Trigger where
  | noTrigger
  | clearBtn
  | chartSub
  | chartState
  | chartCust
  | unknown
deriving DecidableEq, Repr

/-- app.py `manage_state`, restricted to the three store outputs.  A click
payload is `Option (Option String)`: outer `none` = the chart fired with
`clickData = None` (the re-entrancy guard raises `PreventUpdate`, leaving
every store unchanged); `some none` = click data present but structurally
malformed (the `except` inside `get_next_state` keeps the current value);
`some (some v)` = value `v` extracted from `points[0]`. -/
def manage_state (tr : Trigger) (cSub cState cCust : Option (Option String))
    (s : FilterState) : FilterState :=
  match tr with
  | .noTrigger => allAll
  | .clearBtn => allAll
  | .chartSub =>
    match cSub with
    | none => s
    | some mv => ⟨get_next_state mv s.sub, s.state, s.cust⟩
  | .chartState =>
    match cState with
    | none => s
    | some mv => ⟨s.sub, get_next_state mv s.state, s.cust⟩
  | .chartCust =>
    match cCust with
    | none => s
    | some mv => ⟨s.sub, s.state, get_next_state mv s.cust⟩
  | .unknown => s

/-- plotly state-management variant `manage_filters`, restricted to the
three store outputs, with the same payload abstraction as
`manage_state`. -/
def manage_filters (tr : Trigger) (cSub cState cCust : Option (Option String))
    (s : FilterState) : FilterState :=
  match tr with
  | .noTrigger => allAll
  | .clearBtn => allAll
  | .chartSub =>
    match cSub with
    | none => s
    | some mv => ⟨get_new_filter_value mv s.sub, s.state, s.cust⟩
  | .chartState =>
    match cState with
    | none => s
    | some mv => ⟨s.sub, get_new_filter_value mv s.state, s.cust⟩
  | .chartCust =>
    match cCust with
    | none => s
    | some mv => ⟨s.sub, s.state, get_new_filter_value mv s.cust⟩
  | .unknown => s

/-- The four KPI values (the numbers behind the formatted strings). -/
structure Metrics where
  amount : Int
  profit : Int
  quantity : Int
  orders : Nat
deriving DecidableEq, Repr

/-- The KPI block shared by `update_view` / `update_visuals`: an empty
frame yields the explicit zero branch, otherwise sum of Amount, sum of
Profit, sum of Quantity, and `nunique` of Order ID. -/
def computeMetrics (d : List Record) : Metrics :=
  if d.isEmpty then ⟨0, 0, 0, 0⟩
  else
    ⟨(d.map Record.amount).sum,
     (d.map Record.profit).sum,
     (d.map Record.quantity).sum,
     (d.map Record.orderId).dedup.length⟩

/-- Lexicographic comparison of character lists by code point: the order
in which pandas presents string group keys. -/
def charListLt : List Char → List Char → Bool
  | [], [] => false
  | [], _ :: _ => true
  | _ :: _, [] => false
  | a :: as, b :: bs =>
    if a.toNat < b.toNat then true
    else if b.toNat < a.toNat then false
    else charListLt as bs

/-- Stable insertion of a key into an ascending list of keys
(`x` goes after every key below it, before the first key not below it):
the building block modelling pandas' ascending group-key ordering. -/
def insertKey (x : String) : List String → List String
  | [] => [x]
  | y :: ys =>
    if charListLt y.data x.data then y :: insertKey x ys else x :: y :: ys

/-- Ascending insertion sort on keys: `groupby(col, sort=True)` presents
the groups in ascending key order. -/
def sortKeys : List String → List String
  | [] => []
  | x :: xs => insertKey x (sortKeys xs)

/-- The distinct dimension values of a subset (`List.dedup` keeps the
last occurrence of each duplicate; only distinctness and membership are
relied on — the grouping step re-sorts the keys anyway). -/
def seenKeys (key : Record → String) (d : List Record) : List String :=
  (d.map key).dedup

/-- The summed measure of one group:
`df_in.groupby(col)[measure].sum()` restricted to key `k`. -/
def groupSum (key : Record → String) (measure : Record → Int) (k : String)
    (d : List Record) : Int :=
  ((d.filter (fun r => key r == k)).map measure).sum

/-- The grouped frame `df_in.groupby(col)[measure].sum().reset_index()`: one row per
distinct key, keys in ascending order (pandas `sort=True` default), each
paired with its summed measure. -/
def groupSums (key : Record → String) (measure : Record → Int)
    (d : List Record) : List (String × Int) :=
  (sortKeys (seenKeys key d)).map (fun k => (k, groupSum key measure k d))

/-- Stable insertion for the descending sort on the summed measure:
an element moves left past strictly smaller sums only, so elements with
equal sums keep their relative order. -/
def insertDesc (x : String × Int) : List (String × Int) → List (String × Int)
  | [] => [x]
  | y :: ys => if y.2 ≤ x.2 then x :: y :: ys else y :: insertDesc x ys

/-- The step `sort_values(measure, ascending=False)`, modelled as a
stable descending sort.  pandas' default `kind='quicksort'` is documented
as unstable, so this tie order (the frame's, i.e. ascending-key, order)
is guaranteed only for frames of at most 16 groups, where numpy falls
back to insertion sort; theorems therefore assert tie order only on such
fixtures. -/
def sortDesc : List (String × Int) → List (String × Int)
  | [] => []
  | x :: xs => insertDesc x (sortDesc xs)

/-- The vertical-chart aggregation pipeline
`groupby(col)[m].sum().reset_index().sort_values(m, ascending=False).head(n)`
(n = 10 in app.py, n = 8 in the plotly state-management variant). -/
def aggTop (n : Nat) (key : Record → String) (measure : Record → Int)
    (d : List Record) : List (String × Int) :=
  (sortDesc (groupSums key measure d)).take n

/-- Stable insertion for the ascending sort on the summed measure. -/
def insertAsc (x : String × Int) : List (String × Int) → List (String × Int)
  | [] => [x]
  | y :: ys => if x.2 ≤ y.2 then x :: y :: ys else y :: insertAsc x ys

/-- The step `sort_values(measure, ascending=True)` of the horizontal
call sites, modelled as a stable ascending sort (same at-most-16-groups
determinism caveat as `sortDesc`). -/
def sortAsc : List (String × Int) → List (String × Int)
  | [] => []
  | x :: xs => insertAsc x (sortAsc xs)

/-- app.py's horizontal (Sub-Category) pipeline
`groupby(y)[x].sum().reset_index().sort_values(x, ascending=True).tail(10)`:
the top-n groups, returned in ascending sum order (the reversal makes the
horizontal bars read top-down). -/
def aggTopH (n : Nat) (key : Record → String) (measure : Record → Int)
    (d : List Record) : List (String × Int) :=
  let sorted := sortAsc (groupSums key measure d)
  sorted.drop (sorted.length - n)

/-- The plotly state-management variant's horizontal pipeline
`sort_values(sort_col, ascending=True).head(8)`: an ascending sort whose
`head` keeps the BOTTOM n groups (the adjacent comment says "Top 8"). -/
def aggBottomH (n : Nat) (key : Record → String) (measure : Record → Int)
    (d : List Record) : List (String × Int) :=
  (sortAsc (groupSums key measure d)).take n

/-- A rendered chart, abstracted: the `No Data` annotation figure of the
empty branch, or the bar rows of the aggregated frame. -/
inductive ChartFig where
  | noData
  | bars (rows : List (String × Int))
deriving DecidableEq, Repr

/-- The chart builders `build_bar_chart` / `build_interactive_bar` on a vertical chart: the
empty-input branch returns the `No Data` figure before any aggregation;
otherwise the aggregated top-n rows are drawn. -/
def buildChart (n : Nat) (key : Record → String) (measure : Record → Int)
    (d : List Record) : ChartFig :=
  if d.isEmpty then .noData else .bars (aggTop n key measure d)

/-- The State chart of `update_visuals` (plotly state-management
variant): `filter_df(ignore_state=True)` then the vertical top-8 bar
chart on Amount. -/
def chartStateFig (df : List Record) (s : FilterState) : ChartFig :=
  buildChart 8 Record.state Record.amount (filter_df df s false true false)

/-- The Customer chart of `update_visuals`: `filter_df(ignore_cust=True)`
then the vertical top-8 bar chart on Amount. -/
def chartCustFig (df : List Record) (s : FilterState) : ChartFig :=
  buildChart 8 Record.customerName Record.amount
    (filter_df df s false false true)

/-- The Sub-Category chart of `update_visuals`:
`filter_df(ignore_sub=True)`; only its empty/non-empty rendering is used
here (its horizontal aggregation sorts ascending). -/
def chartSubEmpty (df : List Record) (s : FilterState) : Bool :=
  (filter_df df s true false false).isEmpty

/-- Strip every `$` and `,` character, one character at a time:
`str.replace(r"[$,]", "", regex=True)`. -/
def stripCurrencyChars : List Char → List Char
  | [] => []
  | c :: cs =>
    if c = '$' ∨ c = ',' then stripCurrencyChars cs
    else c :: stripCurrencyChars cs

/-- The string after currency-symbol and group-separator removal. -/
def stripCurrency (s : String) : String :=
  String.mk (stripCurrencyChars s.data)

/-- Digit list to natural number, most significant first. -/
def digitsToNat (cs : List Char) : Nat :=
  cs.foldl (fun acc c => 10 * acc + (c.toNat - '0'.toNat)) 0

/-- Parsing by `pd.to_numeric` on a cleaned cell, modelled as a plain decimal
grammar: optional sign, then digits with an optional fractional part; at
least one digit overall; anything else fails (`errors="coerce"` turns the
failure into NaN). -/
def parseDecimal (s : String) : Option ℚ :=
  let cs := s.data
  let signNeg : Bool := match cs with
    | '-' :: _ => true
    | _ => false
  let cs' : List Char := match cs with
    | '-' :: t => t
    | '+' :: t => t
    | _ => cs
  let intPart := cs'.takeWhile Char.isDigit
  let rest := cs'.dropWhile Char.isDigit
  match rest with
  | [] =>
    if intPart.isEmpty then none
    else
      let v : ℚ := (digitsToNat intPart : ℚ)
      some (if signNeg then -v else v)
  | '.' :: frac =>
    if frac.all Char.isDigit ∧ ¬(intPart.isEmpty ∧ frac.isEmpty) then
      let v : ℚ :=
        (digitsToNat intPart : ℚ) +
          (digitsToNat frac : ℚ) / ((10 : ℚ) ^ frac.length)
      some (if signNeg then -v else v)
    else none
  | _ => none

/-- The whole cleaning loop for one cell of Amount/Profit/Quantity:
strip `$` and `,`, then `to_numeric(errors="coerce").fillna(0)`. -/
def cleanNumeric (s : String) : ℚ :=
  (parseDecimal (stripCurrency s)).getD 0

/-- The metric fixture of the spec: two line items of order 1 (CA) and one
of order 2 (NY). -/
def fixtureC3 : List Record :=
  [⟨1, "S1", "CA", "C1", 100, 20, 2⟩,
   ⟨1, "S1", "CA", "C1", 50, 5, 1⟩,
   ⟨2, "S2", "NY", "C2", 200, 40, 3⟩]

/-- The ranking fixture: group sums {A:30, B:50, C:50, D:10}, with the
tied group C encountered before B. -/
def fixC4 : List Record :=
  [⟨1, "S", "C", "X", 50, 0, 0⟩,
   ⟨2, "S", "B", "X", 50, 0, 0⟩,
   ⟨3, "S", "A", "X", 30, 0, 0⟩,
   ⟨4, "S", "D", "X", 10, 0, 0⟩]

/-- A one-record dataset for the empty-result scenario. -/
def exDf : List Record :=
  [⟨1, "Chairs", "CA", "Ann", 100, 20, 2⟩]

/-- The impossible filter combination of the spec: state = "ZZ". -/
def exZZ : FilterState := ⟨"All", "ZZ", "All"⟩

/-- A one-record dataset whose only observed State value is "CA". -/
def obsDf : List Record :=
  [⟨1, "Chairs", "CA", "Ann", 100, 20, 2⟩]

theorem insertKey_perm (x : String) (l : List String) :
    (insertKey x l).Perm (x :: l) := by
  induction l with
  | nil => exact List.Perm.refl _
  | cons y ys ih =>
    simp only [insertKey]
    by_cases hc : charListLt y.data x.data
    · simp only [if_pos hc]
      exact (ih.cons y).trans (List.Perm.swap x y ys)
    · simp only [if_neg hc]
      exact List.Perm.refl _

theorem sortKeys_perm (l : List String) : (sortKeys l).Perm l := by
  induction l with
  | nil => exact List.Perm.refl _
  | cons x xs ih => exact (insertKey_perm x (sortKeys xs)).trans (ih.cons x)

theorem mem_insertDesc (a x : String × Int) (l : List (String × Int)) :
    a ∈ insertDesc x l ↔ a = x ∨ a ∈ l := by
  induction l with
  | nil => simp [insertDesc]
  | cons y ys ih =>
    simp only [insertDesc]
    by_cases hc : y.2 ≤ x.2
    · simp only [if_pos hc, List.mem_cons]
    · simp only [if_neg hc, List.mem_cons, ih]
      tauto

theorem insertDesc_perm (x : String × Int) (l : List (String × Int)) :
    (insertDesc x l).Perm (x :: l) := by
  induction l with
  | nil => exact List.Perm.refl _
  | cons y ys ih =>
    simp only [insertDesc]
    by_cases hc : y.2 ≤ x.2
    · simp only [if_pos hc]
      exact List.Perm.refl _
    · simp only [if_neg hc]
      exact (ih.cons y).trans (List.Perm.swap x y ys)

theorem sortDesc_perm (l : List (String × Int)) : (sortDesc l).Perm l := by
  induction l with
  | nil => exact List.Perm.refl _
  | cons x xs ih => exact (insertDesc_perm x (sortDesc xs)).trans (ih.cons x)

theorem mem_groupSums {key : Record → String} {m : Record → Int}
    {d : List Record} {p : String × Int} (h : p ∈ groupSums key m d) :
    p.1 ∈ d.map key ∧ p.2 = groupSum key m p.1 d := by
  unfold groupSums at h
  rcases List.mem_map.mp h with ⟨k, hk, rfl⟩
  refine ⟨?_, rfl⟩
  have hk2 : k ∈ seenKeys key d := (sortKeys_perm _).mem_iff.mp hk
  simpa [seenKeys, List.mem_dedup] using hk2

theorem groupSums_complete {key : Record → String} {m : Record → Int}
    {d : List Record} {k : String} (h : k ∈ d.map key) :
    (k, groupSum key m k d) ∈ groupSums key m d := by
  unfold groupSums
  refine List.mem_map_of_mem _ ?_
  exact (sortKeys_perm _).mem_iff.mpr (by simpa [seenKeys, List.mem_dedup] using h)

theorem mem_aggTop {n : Nat} {key : Record → String} {m : Record → Int}
    {d : List Record} {p : String × Int} (h : p ∈ aggTop n key m d) :
    p.1 ∈ d.map key ∧ p.2 = groupSum key m p.1 d := by
  unfold aggTop at h
  have h1 : p ∈ sortDesc (groupSums key m d) :=
    (List.take_sublist n _).subset h
  exact mem_groupSums ((sortDesc_perm _).mem_iff.mp h1)

theorem pairwise_sumGe_insertDesc (x : String × Int)
    (l : List (String × Int)) (h : l.Pairwise (fun a b => b.2 ≤ a.2)) :
    (insertDesc x l).Pairwise (fun a b => b.2 ≤ a.2) := by
  induction l with
  | nil => simp [insertDesc]
  | cons y ys ih =>
    rcases List.pairwise_cons.mp h with ⟨hy, hys⟩
    simp only [insertDesc]
    by_cases hc : y.2 ≤ x.2
    · simp only [if_pos hc]
      refine List.pairwise_cons.mpr ⟨?_, h⟩
      intro z hz
      rcases List.mem_cons.mp hz with rfl | hzys
      · exact hc
      · exact le_trans (hy z hzys) hc
    · simp only [if_neg hc]
      push_neg at hc
      refine List.pairwise_cons.mpr ⟨?_, ih hys⟩
      intro z hz
      rcases (mem_insertDesc z x ys).mp hz with rfl | hzys
      · exact le_of_lt hc
      · exact hy z hzys

theorem pairwise_sumGe_sortDesc (l : List (String × Int)) :
    (sortDesc l).Pairwise (fun a b => b.2 ≤ a.2) := by
  induction l with
  | nil => simp [sortDesc]
  | cons x xs ih => exact pairwise_sumGe_insertDesc x _ ih

theorem mem_insertAsc (a x : String × Int) (l : List (String × Int)) :
    a ∈ insertAsc x l ↔ a = x ∨ a ∈ l := by
  induction l with
  | nil => simp [insertAsc]
  | cons y ys ih =>
    simp only [insertAsc]
    by_cases hc : x.2 ≤ y.2
    · simp only [if_pos hc, List.mem_cons]
    · simp only [if_neg hc, List.mem_cons, ih]
      tauto

theorem insertAsc_perm (x : String × Int) (l : List (String × Int)) :
    (insertAsc x l).Perm (x :: l) := by
  induction l with
  | nil => exact List.Perm.refl _
  | cons y ys ih =>
    simp only [insertAsc]
    by_cases hc : x.2 ≤ y.2
    · simp only [if_pos hc]
      exact List.Perm.refl _
    · simp only [if_neg hc]
      exact (ih.cons y).trans (List.Perm.swap x y ys)

theorem sortAsc_perm (l : List (String × Int)) : (sortAsc l).Perm l := by
  induction l with
  | nil => exact List.Perm.refl _
  | cons x xs ih => exact (insertAsc_perm x (sortAsc xs)).trans (ih.cons x)

theorem pairwise_sumLe_insertAsc (x : String × Int)
    (l : List (String × Int)) (h : l.Pairwise (fun a b => a.2 ≤ b.2)) :
    (insertAsc x l).Pairwise (fun a b => a.2 ≤ b.2) := by
  induction l with
  | nil => simp [insertAsc]
  | cons y ys ih =>
    rcases List.pairwise_cons.mp h with ⟨hy, hys⟩
    simp only [insertAsc]
    by_cases hc : x.2 ≤ y.2
    · simp only [if_pos hc]
      refine List.pairwise_cons.mpr ⟨?_, h⟩
      intro z hz
      rcases List.mem_cons.mp hz with rfl | hzys
      · exact hc
      · exact le_trans hc (hy z hzys)
    · simp only [if_neg hc]
      push_neg at hc
      refine List.pairwise_cons.mpr ⟨?_, ih hys⟩
      intro z hz
      rcases (mem_insertAsc z x ys).mp hz with rfl | hzys
      · exact le_of_lt hc
      · exact hy z hzys

theorem pairwise_sumLe_sortAsc (l : List (String × Int)) :
    (sortAsc l).Pairwise (fun a b => a.2 ≤ b.2) := by
  induction l with
  | nil => simp [sortAsc]
  | cons x xs ih => exact pairwise_sumLe_insertAsc x _ ih

theorem aggTop_pairwise (n : Nat) (key : Record → String) (m : Record → Int)
    (d : List Record) :
    (aggTop n key m d).Pairwise (fun a b => b.2 ≤ a.2) :=
  (pairwise_sumGe_sortDesc _).sublist (List.take_sublist n _)

theorem aggTop_length (n : Nat) (key : Record → String) (m : Record → Int)
    (d : List Record) : (aggTop n key m d).length ≤ n := by
  unfold aggTop
  exact List.length_take_le n _


theorem aggTop_top (n : Nat) (key : Record → String) (m : Record → Int)
    (d : List Record) :
    ∀ p ∈ aggTop n key m d,
      ∀ q ∈ (sortDesc (groupSums key m d)).drop n, q.2 ≤ p.2 := by
  intro p hp q hq
  have hpw := pairwise_sumGe_sortDesc (groupSums key m d)
  rw [← List.take_append_drop n (sortDesc (groupSums key m d))] at hpw
  exact (List.pairwise_append.mp hpw).2.2 p hp q hq

theorem mem_aggTopH {n : Nat} {key : Record → String} {m : Record → Int}
    {d : List Record} {p : String × Int} (h : p ∈ aggTopH n key m d) :
    p.1 ∈ d.map key ∧ p.2 = groupSum key m p.1 d := by
  unfold aggTopH at h
  have h1 : p ∈ sortAsc (groupSums key m d) :=
    (List.drop_sublist _ _).subset h
  exact mem_groupSums ((sortAsc_perm _).mem_iff.mp h1)

theorem aggTopH_length (n : Nat) (key : Record → String) (m : Record → Int)
    (d : List Record) : (aggTopH n key m d).length ≤ n := by
  unfold aggTopH
  rw [List.length_drop]
  omega

theorem aggTopH_pairwise (n : Nat) (key : Record → String) (m : Record → Int)
    (d : List Record) :
    (aggTopH n key m d).Pairwise (fun a b => a.2 ≤ b.2) :=
  (pairwise_sumLe_sortAsc _).sublist (List.drop_sublist _ _)

theorem aggTopH_top (n : Nat) (key : Record → String) (m : Record → Int)
    (d : List Record) :
    ∀ p ∈ aggTopH n key m d,
      ∀ q ∈ (sortAsc (groupSums key m d)).take
        ((sortAsc (groupSums key m d)).length - n), q.2 ≤ p.2 := by
  intro p hp q hq
  have hpw := pairwise_sumLe_sortAsc (groupSums key m d)
  rw [← List.take_append_drop ((sortAsc (groupSums key m d)).length - n)
    (sortAsc (groupSums key m d))] at hpw
  exact (List.pairwise_append.mp hpw).2.2 q hq p hp

theorem mem_aggBottomH {n : Nat} {key : Record → String} {m : Record → Int}
    {d : List Record} {p : String × Int} (h : p ∈ aggBottomH n key m d) :
    p.1 ∈ d.map key ∧ p.2 = groupSum key m p.1 d := by
  unfold aggBottomH at h
  have h1 : p ∈ sortAsc (groupSums key m d) :=
    (List.take_sublist n _).subset h
  exact mem_groupSums ((sortAsc_perm _).mem_iff.mp h1)

theorem aggBottomH_length (n : Nat) (key : Record → String)
    (m : Record → Int) (d : List Record) :
    (aggBottomH n key m d).length ≤ n := by
  unfold aggBottomH
  exact List.length_take_le n _

theorem aggBottomH_pairwise (n : Nat) (key : Record → String)
    (m : Record → Int) (d : List Record) :
    (aggBottomH n key m d).Pairwise (fun a b => a.2 ≤ b.2) :=
  (pairwise_sumLe_sortAsc _).sublist (List.take_sublist n _)

theorem aggBottomH_bottom (n : Nat) (key : Record → String)
    (m : Record → Int) (d : List Record) :
    ∀ p ∈ aggBottomH n key m d,
      ∀ q ∈ (sortAsc (groupSums key m d)).drop n, p.2 ≤ q.2 := by
  intro p hp q hq
  have hpw := pairwise_sumLe_sortAsc (groupSums key m d)
  rw [← List.take_append_drop n (sortAsc (groupSums key m d))] at hpw
  exact (List.pairwise_append.mp hpw).2.2 p hp q hq

theorem filter_swap {α : Type} (p q : α → Bool) (l : List α) :
    (l.filter p).filter q = (l.filter q).filter p := by
  induction l with
  | nil => rfl
  | cons a t ih =>
    by_cases hp : p a <;> by_cases hq : q a <;>
      simp [List.filter_cons, hp, hq, ih]

theorem applyDim_comm (sel₁ sel₂ : String) (f₁ f₂ : Record → String)
    (d : List Record) :
    applyDim sel₁ f₁ (applyDim sel₂ f₂ d)
      = applyDim sel₂ f₂ (applyDim sel₁ f₁ d) := by
  unfold applyDim
  split_ifs
  · exact filter_swap _ _ d
  · rfl
  · rfl
  · rfl

theorem filter_df_all (df : List Record) (s : FilterState) :
    filter_df df s false false false
      = applyDim s.cust Record.customerName
          (applyDim s.state Record.state
            (applyDim s.sub Record.subCategory df)) := by
  simp [filter_df, applyDim]

/-- Claim C1: the View Filter Resolver applies, for each chart dimension,
the equality filters of the other two dimensions and never restricts by
the chart's own dimension (changing the own-dimension selection does not
change the chart's subset), while the metrics subset applies all three
filters; this holds for `filter_df` with its `ignore_*` flags and for the
inline per-chart subsets of app.py's `update_view`. -/
theorem C1_view_filter_self_exclusion :
    ∀ (df : List Record) (s : FilterState) (v : String),
      filter_df df ⟨v, s.state, s.cust⟩ true false false
          = filter_df df s true false false ∧
      filter_df df ⟨s.sub, v, s.cust⟩ false true false
          = filter_df df s false true false ∧
      filter_df df ⟨s.sub, s.state, v⟩ false false true
          = filter_df df s false false true ∧
      filter_df df s true false false
          = applyDim s.cust Record.customerName
              (applyDim s.state Record.state df) ∧
      filter_df df s false true false
          = applyDim s.cust Record.customerName
              (applyDim s.sub Record.subCategory df) ∧
      filter_df df s false false true
          = applyDim s.state Record.state
              (applyDim s.sub Record.subCategory df) ∧
      filter_df df s false false false = dff_kpi df s ∧
      df_sub_app df ⟨v, s.state, s.cust⟩ = df_sub_app df s ∧
      df_state_app df ⟨s.sub, v, s.cust⟩ = df_state_app df s ∧
      df_cust_app df ⟨s.sub, s.state, v⟩ = df_cust_app df s ∧
      df_sub_app df s = filter_df df s true false false ∧
      df_state_app df s = filter_df df s false true false ∧
      df_cust_app df s = filter_df df s false false true ∧
      dff_kpi df s
          = applyDim s.cust Record.customerName
              (applyDim s.state Record.state
                (applyDim s.sub Record.subCategory df)) := by
  intro df s v
  simp [filter_df, dff_kpi, df_sub_app, df_state_app, df_cust_app, applyDim]

/-- Claim C8: the per-dimension equality filters are independent predicates
whose application order is irrelevant — each pair of `applyDim` steps
commutes, and all six application orders of the three filters produce
exactly the metrics subset `filter_df df s false false false`. -/
theorem C8_filters_commute :
    ∀ (df : List Record) (s : FilterState),
      applyDim s.state Record.state (applyDim s.sub Record.subCategory df)
          = applyDim s.sub Record.subCategory
              (applyDim s.state Record.state df) ∧
      applyDim s.cust Record.customerName (applyDim s.sub Record.subCategory df)
          = applyDim s.sub Record.subCategory
              (applyDim s.cust Record.customerName df) ∧
      applyDim s.cust Record.customerName (applyDim s.state Record.state df)
          = applyDim s.state Record.state
              (applyDim s.cust Record.customerName df) ∧
      applyDim s.cust Record.customerName (applyDim s.state Record.state
          (applyDim s.sub Record.subCategory df))
        = filter_df df s false false false ∧
      applyDim s.state Record.state (applyDim s.cust Record.customerName
          (applyDim s.sub Record.subCategory df))
        = filter_df df s false false false ∧
      applyDim s.cust Record.customerName (applyDim s.sub Record.subCategory
          (applyDim s.state Record.state df))
        = filter_df df s false false false ∧
      applyDim s.sub Record.subCategory (applyDim s.cust Record.customerName
          (applyDim s.state Record.state df))
        = filter_df df s false false false ∧
      applyDim s.state Record.state (applyDim s.sub Record.subCategory
          (applyDim s.cust Record.customerName df))
        = filter_df df s false false false ∧
      applyDim s.sub Record.subCategory (applyDim s.state Record.state
          (applyDim s.cust Record.customerName df))
        = filter_df df s false false false := by
  intro df s
  rw [filter_df_all df s]
  refine ⟨applyDim_comm _ _ _ _ _, applyDim_comm _ _ _ _ _,
    applyDim_comm _ _ _ _ _, rfl, ?_, ?_, ?_, ?_, ?_⟩
  · rw [applyDim_comm s.state s.cust Record.state Record.customerName]
  · rw [applyDim_comm s.sub s.state Record.subCategory Record.state]
  · rw [applyDim_comm s.sub s.cust Record.subCategory Record.customerName,
      applyDim_comm s.sub s.state Record.subCategory Record.state]
  · rw [applyDim_comm s.sub s.cust Record.subCategory Record.customerName]
    rw [applyDim_comm s.state s.cust Record.state Record.customerName]
  · rw [applyDim_comm s.sub s.state Record.subCategory Record.state]
    rw [applyDim_comm s.sub s.cust Record.subCategory Record.customerName]
    rw [applyDim_comm s.state s.cust Record.state Record.customerName]

theorem get_next_state_eq_rule (v cur : String) :
    get_next_state (some v) cur
      = if cur ≠ "All" ∧ v = cur then "All" else v := by
  unfold get_next_state
  by_cases h1 : v = cur
  · subst h1
    by_cases h2 : v = "All"
    · subst h2; simp
    · simp [h2]
  · simp [h1]

/-- Claim C2: the toggle transition, for every dimension, yields the
complete new filter state prescribed by the rule "if the dimension's
current value is not All and the clicked value equals it, reset the
dimension to All, otherwise set the dimension to the clicked value",
carrying the other two dimensions over unchanged; this holds for app.py's
`manage_state`/`get_next_state` (unconditionally) and for the plotly
variant's `manage_filters`/`get_new_filter_value` (whose clicked value is
whitespace-stripped, hence for already-stripped clicked values). -/
theorem C2_toggle_rule (s : FilterState) (v : String) (hv : pyStrip v = v) :
    manage_state .chartSub (some (some v)) none none s
        = ⟨if s.sub ≠ "All" ∧ v = s.sub then "All" else v,
           s.state, s.cust⟩ ∧
    manage_state .chartState none (some (some v)) none s
        = ⟨s.sub, if s.state ≠ "All" ∧ v = s.state then "All" else v,
           s.cust⟩ ∧
    manage_state .chartCust none none (some (some v)) s
        = ⟨s.sub, s.state,
           if s.cust ≠ "All" ∧ v = s.cust then "All" else v⟩ ∧
    manage_filters .chartSub (some (some v)) none none s
        = ⟨if s.sub ≠ "All" ∧ v = s.sub then "All" else v,
           s.state, s.cust⟩ ∧
    manage_filters .chartState none (some (some v)) none s
        = ⟨s.sub, if s.state ≠ "All" ∧ v = s.state then "All" else v,
           s.cust⟩ ∧
    manage_filters .chartCust none none (some (some v)) s
        = ⟨s.sub, s.state,
           if s.cust ≠ "All" ∧ v = s.cust then "All" else v⟩ := by
  have hns : ∀ cur, get_new_filter_value (some v) cur
      = if cur ≠ "All" ∧ v = cur then "All" else v := by
    intro cur
    unfold get_new_filter_value
    simp only [hv]
  refine ⟨?_, ?_, ?_, ?_, ?_, ?_⟩ <;>
    simp [manage_state, manage_filters, get_next_state_eq_rule, hns]

/-- Witness for C2: a concrete toggle — clicking "CA" while the State
filter is "CA" resets State to "All" and keeps the other dimensions. -/
theorem C2_toggle_rule_witness :
    manage_filters .chartState none (some (some "CA")) none
        ⟨"Pens", "CA", "Bob"⟩
      = ⟨"Pens", "All", "Bob"⟩ := by
  have h := (C2_toggle_rule ⟨"Pens", "CA", "Bob"⟩ "CA" (by decide)).2.2.2.2.1
  rw [h]
  decide

/-- Claim C3: the Metrics Calculator returns the sum of Amount, sum of
Profit, sum of Quantity, and the number of distinct Order IDs (not the
row count) of the fully-filtered subset, with the spec's fixture values
on the three-record fixture (350/65/6/2 unfiltered, 150/25/3/1 under
state = "CA"). -/
theorem C3_metrics_calculator :
    (∀ d : List Record,
      computeMetrics d
        = ⟨(d.map Record.amount).sum, (d.map Record.profit).sum,
           (d.map Record.quantity).sum,
           (d.map Record.orderId).dedup.length⟩) ∧
    computeMetrics (filter_df fixtureC3 allAll false false false)
        = ⟨350, 65, 6, 2⟩ ∧
    computeMetrics (dff_kpi fixtureC3 allAll) = ⟨350, 65, 6, 2⟩ ∧
    computeMetrics (filter_df fixtureC3 ⟨"All", "CA", "All"⟩ false false false)
        = ⟨150, 25, 3, 1⟩ ∧
    computeMetrics (dff_kpi fixtureC3 ⟨"All", "CA", "All"⟩)
        = ⟨150, 25, 3, 1⟩ ∧
    fixtureC3.length = 3 ∧
    (fixtureC3.map Record.orderId).dedup.length = 2 := by
  refine ⟨?_, by decide, by decide, by decide, by decide, by decide,
    by decide⟩
  intro d
  cases d with
  | nil => simp [computeMetrics]
  | cons a t => simp [computeMetrics]

/-- Claim C4 (amended): for every subset and dimension/measure pair, the
aggregator groups records by the dimension's value and sums the measure
per group (every returned row carries an observed key and that key's
group sum, every observed key appears in the sorted frame before
truncation), and keeps at most N rows.  The vertical call sites (State
and Customer charts) return rows in descending sum order with every kept
sum at least every dropped sum; app.py's horizontal call site keeps the
same top-N set but returns it in ascending sum order; the plotly
variant's horizontal call site keeps the BOTTOM N (every kept sum at most
every dropped sum), despite its "Top 8" comment.  The tie order between
equal sums is not the first-encountered order: the grouping step reorders
groups alphabetically before sorting, and the default quicksort carries
no stability guarantee in general — for frames of at most 16 groups the
sort is deterministically stable (numpy insertion sort), so there ties
appear in ascending alphabetical order, as on the fixture with group
sums {A:30, B:50, C:50, D:10}, whose vertical top-2 is exactly B then C
even though C is encountered first. -/
theorem C4_aggregator_amended :
    (∀ (n : Nat) (key : Record → String) (m : Record → Int)
        (d : List Record),
      (∀ p ∈ aggTop n key m d,
        p.1 ∈ d.map key ∧ p.2 = groupSum key m p.1 d) ∧
      (∀ k ∈ d.map key,
        (k, groupSum key m k d) ∈ sortDesc (groupSums key m d)) ∧
      (aggTop n key m d).length ≤ n ∧
      (aggTop n key m d).Pairwise (fun a b => b.2 ≤ a.2) ∧
      (∀ p ∈ aggTop n key m d,
        ∀ q ∈ (sortDesc (groupSums key m d)).drop n, q.2 ≤ p.2)) ∧
    (∀ (n : Nat) (key : Record → String) (m : Record → Int)
        (d : List Record),
      (∀ p ∈ aggTopH n key m d,
        p.1 ∈ d.map key ∧ p.2 = groupSum key m p.1 d) ∧
      (aggTopH n key m d).length ≤ n ∧
      (aggTopH n key m d).Pairwise (fun a b => a.2 ≤ b.2) ∧
      (∀ p ∈ aggTopH n key m d,
        ∀ q ∈ (sortAsc (groupSums key m d)).take
          ((sortAsc (groupSums key m d)).length - n), q.2 ≤ p.2)) ∧
    (∀ (n : Nat) (key : Record → String) (m : Record → Int)
        (d : List Record),
      (∀ p ∈ aggBottomH n key m d,
        p.1 ∈ d.map key ∧ p.2 = groupSum key m p.1 d) ∧
      (aggBottomH n key m d).length ≤ n ∧
      (aggBottomH n key m d).Pairwise (fun a b => a.2 ≤ b.2) ∧
      (∀ p ∈ aggBottomH n key m d,
        ∀ q ∈ (sortAsc (groupSums key m d)).drop n, p.2 ≤ q.2)) ∧
    fixC4.map Record.state = ["C", "B", "A", "D"] ∧
    aggTop 2 Record.state Record.amount fixC4 = [("B", 50), ("C", 50)] ∧
    aggTopH 2 Record.state Record.amount fixC4 = [("B", 50), ("C", 50)] ∧
    aggTopH 3 Record.state Record.amount fixC4
        = [("A", 30), ("B", 50), ("C", 50)] ∧
    aggBottomH 2 Record.state Record.amount fixC4
        = [("D", 10), ("A", 30)] := by
  refine ⟨?_, ?_, ?_, by decide, by decide, by decide, by decide,
    by decide⟩
  · intro n key m d
    refine ⟨fun p hp => mem_aggTop hp, ?_, aggTop_length n key m d,
      aggTop_pairwise n key m d, aggTop_top n key m d⟩
    intro k hk
    exact (sortDesc_perm _).mem_iff.mpr (groupSums_complete hk)
  · intro n key m d
    exact ⟨fun p hp => mem_aggTopH hp, aggTopH_length n key m d,
      aggTopH_pairwise n key m d, aggTopH_top n key m d⟩
  · intro n key m d
    exact ⟨fun p hp => mem_aggBottomH hp, aggBottomH_length n key m d,
      aggBottomH_pairwise n key m d, aggBottomH_bottom n key m d⟩

/-- Witness for C4 (amended): the first row of the vertical top-2 on the
ranking fixture carries an observed key and that key's group sum. -/
theorem C4_aggregator_amended_witness :
    ("B", (50 : Int)).1 ∈ fixC4.map Record.state ∧
    ("B", (50 : Int)).2 = groupSum Record.state Record.amount "B" fixC4 :=
  (C4_aggregator_amended.1 2 Record.state Record.amount fixC4).1
    ("B", 50) (by decide)

/-- Counterexample for C4 as stated: on the ranking fixture (4 groups, so
the default sort is deterministically numpy's insertion sort) the tied
groups are first encountered in the order C, B, yet the vertical top-2 is
B then C — the tie-break is not the claimed first-encountered order; and
at the plotly variant's horizontal call site the top-2 is D then A — the
bottom two groups — containing neither B nor C, against the claimed
top-N truncation. -/
theorem C4_aggregator_counterexample :
    fixC4.map Record.state = ["C", "B", "A", "D"] ∧
    aggTop 2 Record.state Record.amount fixC4 = [("B", 50), ("C", 50)] ∧
    aggTop 2 Record.state Record.amount fixC4 ≠ [("C", 50), ("B", 50)] ∧
    aggBottomH 2 Record.state Record.amount fixC4
        = [("D", 10), ("A", 30)] ∧
    ¬(("B", (50 : Int)) ∈ aggBottomH 2 Record.state Record.amount fixC4) ∧
    ¬(("C", (50 : Int)) ∈ aggBottomH 2 Record.state Record.amount fixC4) := by
  decide

/-- Claim C5 (amended): a filter combination matching no records yields
all four metrics zero and raises nothing, and every chart whose resolved
(self-excluded) subset is empty renders the empty "No Data" figure; but
because a chart ignores its own dimension's filter, the chart of the
filtered dimension itself can still show a non-empty aggregate — with
state = "ZZ" on a CA-only dataset the sub-category and customer charts
are empty while the State chart still aggregates the full data. -/
theorem C5_empty_result_amended :
    (∀ d : List Record, d.isEmpty = true → computeMetrics d = ⟨0, 0, 0, 0⟩) ∧
    (∀ (n : Nat) (key : Record → String) (m : Record → Int)
        (d : List Record),
      d.isEmpty = true → buildChart n key m d = .noData) ∧
    computeMetrics (filter_df exDf exZZ false false false) = ⟨0, 0, 0, 0⟩ ∧
    computeMetrics (dff_kpi exDf exZZ) = ⟨0, 0, 0, 0⟩ ∧
    chartSubEmpty exDf exZZ = true ∧
    chartCustFig exDf exZZ = .noData ∧
    chartStateFig exDf exZZ = .bars [("CA", 100)] := by
  refine ⟨?_, ?_, by decide, by decide, by decide, by decide, by decide⟩
  · intro d h
    simp [computeMetrics, h]
  · intro n key m d h
    simp [buildChart, h]

/-- Witness for C5 (amended): the empty subset yields zero metrics and
the "No Data" chart. -/
theorem C5_empty_result_amended_witness :
    computeMetrics [] = ⟨0, 0, 0, 0⟩ ∧
    buildChart 8 Record.state Record.amount [] = .noData :=
  ⟨C5_empty_result_amended.1 [] rfl,
   C5_empty_result_amended.2.1 8 Record.state Record.amount [] rfl⟩

/-- Counterexample for C5 as stated: state = "ZZ" matches no record of the
CA-only dataset, yet the State chart's aggregate list is not empty (the
chart excludes its own dimension's filter), contradicting "an empty
aggregate list for every chart". -/
theorem C5_empty_result_counterexample :
    filter_df exDf exZZ false false false = [] ∧
    chartStateFig exDf exZZ ≠ ChartFig.noData := by
  decide

/-- Claim C6 (amended): in app.py and the plotly variant a transition
fired with a null clicked value is a no-op (the `PreventUpdate` guard),
and in the vega variant a null signal or one without the observed signal
name is a no-op; but the vega variant maps a present-yet-empty selection
content to "All" — a deliberate clear-on-blank-click policy — so there an
empty value is interpreted as a deselect rather than ignored. -/
theorem C6_clear_guard_amended :
    ∀ (s : FilterState) (cur : String) (c₁ c₂ : Option (Option String)),
      manage_state .chartSub none c₁ c₂ s = s ∧
      manage_state .chartState c₁ none c₂ s = s ∧
      manage_state .chartCust c₁ c₂ none s = s ∧
      manage_filters .chartSub none c₁ c₂ s = s ∧
      manage_filters .chartState c₁ none c₂ s = s ∧
      manage_filters .chartCust c₁ c₂ none s = s ∧
      process_signal none cur = cur ∧
      process_signal (some (some [])) cur = cur ∧
      process_signal (some none) cur = "All" := by
  intro s cur c₁ c₂
  exact ⟨rfl, rfl, rfl, rfl, rfl, rfl, rfl, rfl, rfl⟩

/-- Counterexample for C6 as stated: in the vega variant an empty
selection content while State is "CA" is not a no-op — it deselects to
"All". -/
theorem C6_clear_guard_counterexample :
    process_signal (some none) "CA" = "All" ∧
    process_signal (some none) "CA" ≠ "CA" := by
  decide

/-- Claim C7 (amended): an interaction event with an unrecognized
dimension (trigger id) or a structurally malformed payload carries the
current filter state over unchanged; but a well-formed clicked value is
never validated against the Dataset — a value not observed in the data
(such as "ZZ") is applied as a filter, after which the views render the
empty case. -/
theorem C7_malformed_signal_amended :
    (∀ (s : FilterState) (c₁ c₂ c₃ : Option (Option String)),
      manage_state .unknown c₁ c₂ c₃ s = s ∧
      manage_filters .unknown c₁ c₂ c₃ s = s ∧
      manage_state .chartState c₁ (some none) c₃ s = s ∧
      manage_filters .chartState c₁ (some none) c₃ s = s) ∧
    obsDf.map Record.state = ["CA"] ∧
    manage_state .chartState none (some (some "ZZ")) none allAll
        = ⟨"All", "ZZ", "All"⟩ ∧
    filter_df obsDf ⟨"All", "ZZ", "All"⟩ false false false = [] := by
  refine ⟨?_, by decide, by decide, by decide⟩
  intro s c₁ c₂ c₃
  exact ⟨rfl, rfl, rfl, rfl⟩

/-- Counterexample for C7 as stated: "ZZ" is not an observed State value,
yet clicking it changes the filter state — the transition is applied, not
ignored. -/
theorem C7_malformed_signal_counterexample :
    ¬("ZZ" ∈ obsDf.map Record.state) ∧
    manage_state .chartState none (some (some "ZZ")) none allAll
      ≠ allAll := by
  decide

theorem stripCurrencyChars_eq_filter : ∀ cs : List Char,
    stripCurrencyChars cs = cs.filter (fun c => !(c == '$' || c == ',')) := by
  intro cs
  induction cs with
  | nil => rfl
  | cons c t ih =>
    simp only [stripCurrencyChars, List.filter_cons]
    by_cases h : c = '$' ∨ c = ','
    · have hb : ¬((!(c == '$' || c == ',')) = true) := by
        rcases h with h | h <;> simp [h]
      rw [if_pos h, if_neg hb, ih]
    · have hb : (!(c == '$' || c == ',')) = true := by
        push_neg at h
        simp [h.1, h.2]
      rw [if_neg h, if_pos hb, ih]

/-- Claim C9: the load-time coercion of Amount/Profit/Quantity strings
strips every `$` and `,` character and keeps all others, yields the
parsed numeric value of the stripped string, and coerces any string that
is non-numeric after stripping to zero; e.g. "$1,200" loads as 1200,
"-$3,000" as -3000, and "abc", "" and "12%" as 0. -/
theorem C9_numeric_coercion :
    (∀ s : String,
      (stripCurrency s).data
        = s.data.filter (fun c => !(c == '$' || c == ','))) ∧
    (∀ s : String,
      cleanNumeric s = (parseDecimal (stripCurrency s)).getD 0) ∧
    cleanNumeric "$1,200" = 1200 ∧
    cleanNumeric "-$3,000" = -3000 ∧
    cleanNumeric "abc" = 0 ∧
    cleanNumeric "" = 0 ∧
    cleanNumeric "12%" = 0 ∧
    stripCurrency "$1,200" = "1200" ∧
    parseDecimal "1200" = some 1200 ∧
    parseDecimal "abc" = none ∧
    cleanNumeric "$1,234.50" = 2469 / 2 := by
  refine ⟨?_, fun s => rfl, by decide, by decide, by decide, by decide,
    by decide, by decide, by decide, by decide, ?_⟩
  · intro s
    exact stripCurrencyChars_eq_filter s.data
  · have h1 : stripCurrency "$1,234.50" = "1234.50" := by decide
    unfold cleanNumeric
    rw [h1]
    have h2 : parseDecimal "1234.50"
        = some (((digitsToNat ['1', '2', '3', '4'] : ℕ) : ℚ)
            + ((digitsToNat ['5', '0'] : ℕ) : ℚ)
              / (10 : ℚ) ^ (['5', '0'] : List Char).length) := rfl
    have h3 : digitsToNat ['1', '2', '3', '4'] = 1234 := by decide
    have h4 : digitsToNat ['5', '0'] = 50 := by decide
    rw [h2, h3, h4]
    norm_num

/-- Claim C10: a clicked value that is literally the string "All" can
never become a restricting filter: both toggle helpers map it to the
sentinel "All" whatever the current selection is, the stores then hold
"All", and a dimension whose store holds "All" imposes no restriction in
the resolver. -/
theorem C10_sentinel_collision :
    ∀ (cur : String) (df : List Record) (s : FilterState),
      get_next_state (some "All") cur = "All" ∧
      get_new_filter_value (some "All") cur = "All" ∧
      manage_state .chartState none (some (some "All")) none s
          = ⟨s.sub, "All", s.cust⟩ ∧
      manage_filters .chartState none (some (some "All")) none s
          = ⟨s.sub, "All", s.cust⟩ ∧
      applyDim "All" Record.state df = df ∧
      filter_df df ⟨s.sub, "All", s.cust⟩ false false false
          = filter_df df ⟨s.sub, "All", s.cust⟩ false true false := by
  intro cur df s
  have hs : pyStrip "All" = "All" := by decide
  have h1 : ∀ w, get_next_state (some "All") w = "All" := by
    intro w
    simp [get_next_state]
  have h2 : ∀ w, get_new_filter_value (some "All") w = "All" := by
    intro w
    simp [get_new_filter_value, hs]
  refine ⟨h1 cur, h2 cur, ?_, ?_, ?_, ?_⟩
  · simp [manage_state, h1]
  · simp [manage_filters, h2]
  · simp [applyDim]
  · simp [filter_df]

